import Mathlib

/-!
# Verification of the koreanlearning quiz/ledger core

Shallow embedding of the quiz state machine, comparators and the
wrong/mastery storage ledger of the koreanlearning repository
(`CheckPage` / `CheckModal`, `SentenceCheckPage`, `src/utils/csv.ts`,
`ListPage.handleImportChange`), together with proofs settling the frozen
claims about them.

Modelling conventions:
* JavaScript strings are Lean `String`s; `String.trim`-like and
  `toLowerCase`-like behaviour is modelled on the underlying character
  list (`jsTrim`, `jsToLower`).  `Char.toLower` models the ASCII case
  fold of `toLowerCase`; the Korean text exercised here has no case.
* `localStorage` is a key-value `Store : String → Option JsonVal`.
  Stored blobs are modelled as a small JSON value type rather than raw
  text; `JSON.parse` of a stored blob therefore always "succeeds", which
  matches every reachable store content (the app only ever stores
  `JSON.stringify` output).  Numeric JSON values are modelled as `Int`
  (timestamps in milliseconds); non-numeric `savedAt` values, which the
  app never writes, are modelled as non-expired, matching the `NaN`
  comparison semantics of `Date.now() - savedAt > EIGHT_HOURS_MS`.
* JavaScript `Set` iteration order (insertion order, first occurrence
  kept) is modelled by `jsSetOf` / `insertUnique` on `List String`.
-/

set_option autoImplicit false

namespace KoreanStudy

/-! ## Character and string helpers (src/utils/text.ts and inline code) -/

/-- JS whitespace characters relevant to `String.prototype.trim` and
`/\s+/` for the data in this app. -/
def isWsChar (c : Char) : Bool :=
  c = ' ' || c = '\t' || c = '\n' || c = '\r'

/-- `String.prototype.trim()`: drop whitespace from both ends. -/
def jsTrim (s : String) : String :=
  ⟨((s.data.dropWhile isWsChar).reverse.dropWhile isWsChar).reverse⟩

/-- `String.prototype.toLowerCase()` restricted to the ASCII fold. -/
def jsToLower (s : String) : String :=
  ⟨s.data.map Char.toLower⟩

/-- `normalizeNewlines` (src/utils/text.ts): replace each literal
backslash-n two-character sequence by a real newline, scanning left to
right (the semantics of `String.replace(/\\n/g, '\n')`). -/
def normNlChars : List Char → List Char
  | '\\' :: 'n' :: rest => '\n' :: normNlChars rest
  | c :: rest => c :: normNlChars rest
  | [] => []

/-- `normalizeNewlines` on `String`. -/
def normalizeNewlines (s : String) : String :=
  ⟨normNlChars s.data⟩

/-! ## Vocabulary comparator (CheckPage/CheckModal `checkAnswer`) -/

/-- The comparison performed by `checkAnswer` in `CheckPage` and
`CheckModal`: `userInput.trim().toLowerCase() === current.korean.toLowerCase()`.
Only the user side is trimmed; neither side is newline-normalized. -/
def vocabCorrect (userInput target : String) : Bool :=
  jsToLower (jsTrim userInput) == jsToLower target

/-- The comparison as the specification words it (claim C3): both sides
normalized (literal backslash-n to newline), trimmed and lower-cased,
then compared for equality. -/
def specVocabCorrect (userInput target : String) : Bool :=
  jsToLower (jsTrim (normalizeNewlines userInput))
    == jsToLower (jsTrim (normalizeNewlines target))

/-! ## JSON values and the key-value store -/

/-- Small JSON value universe for the persisted blobs. -/
inductive JsonVal where
  | null : JsonVal
  | bool (b : Bool) : JsonVal
  | num (n : Int) : JsonVal
  | str (s : String) : JsonVal
  | arr (elems : List JsonVal) : JsonVal
  | obj (fields : List (String × JsonVal)) : JsonVal
  deriving Repr

/-- Structural decidable equality for `JsonVal` (spelled out because the
nested `List` recursion defeats automatic derivation). -/
def JsonVal.beq : JsonVal → JsonVal → Bool
  | .null, .null => true
  | .bool a, .bool b => a == b
  | .num a, .num b => a == b
  | .str a, .str b => a == b
  | .arr a, .arr b => beqList a b
  | .obj a, .obj b => beqFields a b
  | _, _ => false
where
  beqList : List JsonVal → List JsonVal → Bool
    | [], [] => true
    | x :: xs, y :: ys => x.beq y && beqList xs ys
    | _, _ => false
  beqFields : List (String × JsonVal) → List (String × JsonVal) → Bool
    | [], [] => true
    | (k, v) :: xs, (k', v') :: ys => k == k' && v.beq v' && beqFields xs ys
    | _, _ => false

/-- The browser `localStorage`, restricted to the JSON blobs this app
stores: a partial map from keys to JSON values. -/
def Store : Type := String → Option JsonVal

/-- `localStorage.getItem`. -/
def getItem (st : Store) (key : String) : Option JsonVal := st key

/-- `localStorage.setItem`. -/
def setItem (st : Store) (key : String) (v : JsonVal) : Store :=
  fun k => if k = key then some v else st k

/-- `localStorage.removeItem`. -/
def removeItem (st : Store) (key : String) : Store :=
  fun k => if k = key then none else st k

/-- A store with no keys set. -/
def emptyStore : Store := fun _ => none

/-- Property lookup `obj.field` on a parsed JSON object (the app never
stores duplicate keys). -/
def jget (fields : List (String × JsonVal)) (key : String) : Option JsonVal :=
  match fields with
  | [] => none
  | (k, v) :: rest => if k = key then some v else jget rest key

/-- JS truthiness test `!x` on an (optional) JSON field value. -/
def jsFalsy : Option JsonVal → Bool
  | none => true
  | some .null => true
  | some (.bool b) => !b
  | some (.num n) => n == 0
  | some (.str s) => s == ""
  | some (.arr _) => false
  | some (.obj _) => false

/-- Eight hours in milliseconds, as in every expiry check of the app. -/
def EIGHT_HOURS_MS : Int := 8 * 60 * 60 * 1000

/-- The combined guard `!parsed.savedAt || Date.now() - parsed.savedAt >
EIGHT_HOURS_MS` used by every record loader.  A numeric `savedAt` is
falsy exactly when it is `0`; for non-numeric values (never written by
the app) only the truthiness part can fire, because the arithmetic
comparison is `NaN`-false in JS for the values this model covers. -/
def savedAtExpired (now : Int) (savedAt : Option JsonVal) : Bool :=
  match savedAt with
  | some (.num n) => n == 0 || decide (EIGHT_HOURS_MS < now - n)
  | v => jsFalsy v

/-- The string elements of a stored `ids` array (the app only stores
arrays of strings there). -/
def stringElems (elems : List JsonVal) : List String :=
  elems.foldr (fun v acc => match v with | .str s => s :: acc | _ => acc) []

/-- Append an element if absent: `Set.prototype.add` under insertion
order. -/
def insertUnique (l : List String) (x : String) : List String :=
  if x ∈ l then l else l ++ [x]

/-- `new Set(list)` with JS iteration order: first occurrences, in
order. -/
def jsSetOf (l : List String) : List String :=
  l.foldl insertUnique []

/-- The characters of `s` as one-character strings, deduplicated: what
`new Set(someString)` iterates in JS. -/
def charStrings (s : String) : List String :=
  jsSetOf (s.data.map (fun c => ⟨[c]⟩))

/-! ## Storage keys -/

/-- `cardId ? category + ":" + cardId : category` (the per-scope key
fragment used throughout the app). -/
def categoryKey (category : String) (cardId : Option String) : String :=
  match cardId with
  | some cid => category ++ ":" ++ cid
  | none => category

/-- Key of the persisted wrong record, as computed by
`loadWrongIds`/`saveWrongIds` in `src/utils/csv.ts` (with the special
`sentences` spelling) and inline by `CheckPage`. -/
def wrongKeyOf (category : String) (cardId : Option String) : String :=
  if category.startsWith "sentences" then
    "korean-study:wrong:sentences" ++ (match cardId with
      | some cid => ":" ++ cid
      | none => "")
  else
    "korean-study:wrong:" ++ categoryKey category cardId

/-- Key of the sentence-mode mastery record
(`SentenceCheckPage.loadCorrectSentences`). -/
def sentenceCorrectKey (cardId : Option String) (isWrongOnlyMode : Bool) : String :=
  (if isWrongOnlyMode then "korean-study:sentence-correct-wrong:"
   else "korean-study:sentence-correct:")
    ++ (match cardId with | some cid => cid ++ ":" | none => "") ++ "all"

/-! ## Wrong/mastery ledger (src/utils/csv.ts, NotesCategoryPage) -/

/-- `loadWrongIds(category, cardId)` from `src/utils/csv.ts`: returns the
loaded id set together with the store after the read's side effects
(expiry deletion, or legacy bare-array migration). -/
def loadWrongIds (now : Int) (st : Store) (category : String)
    (cardId : Option String) : List String × Store :=
  let wrongKey := wrongKeyOf category cardId
  match getItem st wrongKey with
  | none => ([], st)
  | some v =>
    match v with
    | .obj fields =>
      if (jget fields "savedAt").isSome then
        -- new format with timestamp
        if savedAtExpired now (jget fields "savedAt") then
          ([], removeItem st wrongKey)
        else
          -- `new Set(parsed.ids)`
          match jget fields "ids" with
          | some (.arr xs) => (jsSetOf (stringElems xs), st)
          | some (.str s) => (charStrings s, st)
          | some .null => ([], st)
          | none => ([], st)
          | some _ => ([], st)  -- non-iterable: TypeError swallowed by the catch
      else
        ([], st)  -- object without savedAt: falls through both branches
    | .arr xs =>
      -- old format (bare array): migrate in place, stamping the current time
      (jsSetOf (stringElems xs),
       setItem st wrongKey (.obj [("ids", .arr xs), ("savedAt", .num now)]))
    | _ => ([], st)  -- numbers, strings, booleans, null: no branch taken

/-- `saveWrongIds(category, ids, cardId)` from `src/utils/csv.ts`. -/
def saveWrongIds (now : Int) (st : Store) (category : String)
    (cardId : Option String) (ids : List String) : Store :=
  setItem st (wrongKeyOf category cardId)
    (.obj [("ids", .arr (ids.map .str)), ("savedAt", .num now)])

/-- `loadCorrectSentences(cardId, isWrongOnlyMode)` from
`SentenceCheckPage`: sentence-mode mastery load with 8-hour expiry and
cleanup-on-read. -/
def loadCorrectSentences (now : Int) (st : Store) (cardId : Option String)
    (isWrongOnlyMode : Bool) : List String × Store :=
  let correctKey := sentenceCorrectKey cardId isWrongOnlyMode
  match getItem st correctKey with
  | none => ([], st)
  | some v =>
    match v with
    | .obj fields =>
      match jget fields "ids" with
      | some (.arr xs) =>
        if savedAtExpired now (jget fields "savedAt") then
          ([], removeItem st correctKey)
        else
          (jsSetOf (stringElems xs), st)
      | _ => ([], removeItem st correctKey)  -- `!Array.isArray(parsed.ids)`
    | _ => ([], removeItem st correctKey)  -- `!parsed || !Array.isArray(parsed.ids)`

/-- The wrong-record update in `SentenceCheckPage.checkAnswer`'s
incorrect branch: `loadWrongIds`, `add(current.id)`, `saveWrongIds`. -/
def sentenceSaveWrong (now : Int) (st : Store) (cardId : Option String)
    (id : String) : Store :=
  let loaded := loadWrongIds now st "sentences" cardId
  saveWrongIds now loaded.2 "sentences" cardId (insertUnique loaded.1 id)

/-- The wrong-record update in `CheckPage.nextQuestion`'s incorrect
branch: read the raw record, `new Set(JSON.parse(raw) as string[])`,
add the id, and write the result back as a **bare array**; any exception
(notably `new Set` applied to a parsed `{ids, savedAt}` object, which is
not iterable) is swallowed by the surrounding `catch`, leaving the store
unchanged. -/
def checkSaveWrong (st : Store) (wrongKey : String) (id : String) : Store :=
  match getItem st wrongKey with
  | none => setItem st wrongKey (.arr [.str id])
  | some (.arr xs) =>
    setItem st wrongKey (.arr ((insertUnique (jsSetOf (stringElems xs)) id).map .str))
  | some (.str s) =>
    setItem st wrongKey (.arr ((insertUnique (charStrings s) id).map .str))
  | some .null => setItem st wrongKey (.arr [.str id])
  | some _ => st  -- object/number/boolean: `new Set` throws, swallowed

/-- The `wrongIds` `useMemo` of `CheckPage` (wrong-only candidate
filter): parses the persisted wrong record as a **bare array** of ids;
a record in the `{ids, savedAt}` object format makes `new Set` throw,
the error is swallowed, and the memo yields the empty set. -/
def wrongIdsMemoRead (st : Store) (category : String)
    (cardId : Option String) (isWrongOnlyMode : Bool) : List String :=
  if !isWrongOnlyMode then []
  else
    match getItem st (wrongKeyOf category cardId) with
    | none => []
    | some (.arr xs) => jsSetOf (stringElems xs)
    | some (.str s) => charStrings s
    | some .null => []
    | some _ => []  -- object/number/boolean: `new Set` throws, swallowed

/-! ## Sentence comparator (NotesCategoryPage `SentenceCheckPage`) -/

/-- The punctuation class `[.,!?;:]` of `splitKoreanWords`. -/
def isPunct (c : Char) : Bool :=
  c = '.' || c = ',' || c = '!' || c = '?' || c = ';' || c = ':'

/-- `sentence.replace(/[.,!?;:]/g, ' ')` on one character. -/
def punctToSpace (c : Char) : Char :=
  if isPunct c then ' ' else c

/-- Maximal runs of characters not satisfying `p`, in order: the
combined effect of `.trim().split(/\s+/).filter(w => w.length > 0)`
with separator class `p`.  `acc` holds the current word, reversed. -/
def wordsAux (p : Char → Bool) : List Char → List Char → List (List Char)
  | [], acc => if acc.isEmpty then [] else [acc.reverse]
  | c :: cs, acc =>
    if p c then
      if acc.isEmpty then wordsAux p cs [] else acc.reverse :: wordsAux p cs []
    else
      wordsAux p cs (c :: acc)

/-- `splitKoreanWords` (NotesCategoryPage): replace punctuation by
spaces, then split into whitespace-separated words. -/
def splitKoreanWords (s : String) : List String :=
  (wordsAux isWsChar (s.data.map punctToSpace) []).map (⟨·⟩)

/-- The per-token test of `compareSentences`:
`userWord.trim().toLowerCase() === correctWord.trim().toLowerCase()`. -/
def tokEq (a b : String) : Bool :=
  jsToLower (jsTrim a) == jsToLower (jsTrim b)

/-- `compareSentences(userInput, correctSentence)` (NotesCategoryPage):
positional word-by-word comparison over `max` of the token counts;
positions past the user's tokens are emitted as `("", false)`. -/
def compareSentences (userInput correctSentence : String) : List (String × Bool) :=
  let userWords := splitKoreanWords userInput
  let correctWords := splitKoreanWords correctSentence
  (List.range (max userWords.length correctWords.length)).map fun i =>
    let userWord := (userWords.get? i).getD ""
    let correctWord := (correctWords.get? i).getD ""
    if i < userWords.length then (userWord, tokEq userWord correctWord)
    else ("", false)

/-- `comparison.length > 0 && comparison.every(r => r.isCorrect)`: the
"fully correct" test of `SentenceCheckPage.checkAnswer`. -/
def allCorrectB (comparison : List (String × Bool)) : Bool :=
  decide (0 < comparison.length) && comparison.all (·.2)

/-- Reference tokenizer following the specification's words literally:
the punctuation characters are *stripped* (removed) before splitting on
whitespace runs. -/
def specTokensDel (s : String) : List String :=
  (wordsAux isWsChar (s.data.filter (fun c => !isPunct c)) []).map (⟨·⟩)

/-- Reference tokenizer for the amended reading: punctuation acts as an
additional separator class alongside whitespace. -/
def specTokensSep (s : String) : List String :=
  (wordsAux (fun c => isWsChar c || isPunct c) s.data []).map (⟨·⟩)

/-- The specification's positional comparison, stated as a recursion on
the two token lists: compare position-by-position; missing user
positions yield `("", false)`; extra user positions compare against an
empty target token. -/
def zipPad : List String → List String → List (String × Bool)
  | [], ts => ts.map (fun _ => ("", false))
  | u :: us, ts => (u, tokEq u (ts.headD "")) :: zipPad us ts.tail

/-- The reference sentence comparison under the specification's literal
(punctuation-deleting) reading. -/
def specCompareDel (userInput target : String) : List (String × Bool) :=
  zipPad (specTokensDel userInput) (specTokensDel target)

/-- The reference sentence comparison under the amended
(punctuation-as-separator) reading. -/
def specCompareSep (userInput target : String) : List (String × Bool) :=
  zipPad (specTokensSep userInput) (specTokensSep target)

/-! ## Data model (src/types.ts) -/

/-- `StudyItem` (vocabulary/grammar item); optional fields are modelled
as strings with `""` for absent, matching the CSV importer's defaults. -/
structure StudyItem where
  id : String
  korean : String
  vietnamese : String
  english : String
  description : String := ""
  example1_ko : String := ""
  example1_vi : String := ""
  example1_en : String := ""
  example2_ko : String := ""
  example2_vi : String := ""
  example2_en : String := ""
  deriving Repr, DecidableEq

/-- `SentenceItem`. -/
structure SentenceItem where
  id : String
  sentence : String
  vietnamese : String
  vocabulary : String := ""
  grammar : String := ""
  deriving Repr, DecidableEq

/-! ## Check quiz session (CheckPage / CheckModal) -/

/-- The React state of one Check screen that the quiz logic touches. -/
structure CheckSession where
  shuffledDeck : List StudyItem
  learnedIds : List String
  index : Nat
  userInput : String
  showResult : Bool
  isCorrect : Bool
  deriving Repr, DecidableEq

/-- The live-filtered deck:
`shuffledDeck.filter(i => !learnedIds.has(i.id))`. -/
def deckC (s : CheckSession) : List StudyItem :=
  s.shuffledDeck.filter (fun i => !s.learnedIds.contains i.id)

/-- `current = deck[index] ?? deck[deck.length - 1]`. -/
def currentC (s : CheckSession) : Option StudyItem :=
  match (deckC s).get? s.index with
  | some x => some x
  | none => (deckC s).get? ((deckC s).length - 1)

/-- `goNext` (CheckPage/CheckModal): cyclic advance over the filtered
deck; no-op when the filtered deck is empty. -/
def goNextC (s : CheckSession) : CheckSession :=
  let len := (deckC s).length
  if len = 0 then s
  else { s with index := (s.index + 1) % len }

/-- `goPrev` (CheckPage/CheckModal): cyclic retreat, but an early return
makes it a no-op both on an empty deck **and whenever the cursor is at
index 0** (it never wraps backwards). -/
def goPrevC (s : CheckSession) : CheckSession :=
  let len := (deckC s).length
  if len = 0 || s.index = 0 then s
  else { s with index := (s.index + len - 1) % len }

/-- `checkAnswer` (CheckPage/CheckModal): no-op without a current item;
otherwise records the comparison outcome and shows the result. -/
def checkAnswerC (s : CheckSession) : CheckSession :=
  match currentC s with
  | none => s
  | some cur =>
    { s with isCorrect := vocabCorrect s.userInput cur.korean, showResult := true }

/-- The requeue of `nextQuestion`'s incorrect branch: find the first
deck entry with the answered id, splice it out and push it to the end
(identity when the id is absent). -/
def requeue : List StudyItem → String → List StudyItem
  | [], _ => []
  | x :: xs, id => if x.id = id then xs ++ [x] else x :: requeue xs id

/-- `nextQuestion` (CheckPage): the whole advance step, including its
storage writes.  On a correct answer the id is added to the learned set
and persisted under `masteryKey` in `{ids, savedAt}` format, then the
cursor advances over the *pre-update* filtered deck.  On an incorrect
answer the id is pushed into the wrong record via `checkSaveWrong`, the
item is requeued to the end of the underlying shuffled deck, and either
the answered state is reset in place (filtered deck of exactly 1) or the
cursor advances.  An id that is the empty string is JS-falsy and skips
the id-specific work. -/
def nextQuestion (now : Int) (masteryKey wrongKey : String) (st : Store)
    (s : CheckSession) : CheckSession × Store :=
  if s.isCorrect then
    match currentC s with
    | some cur =>
      if cur.id = "" then (goNextC s, st)
      else
        let learned := insertUnique s.learnedIds cur.id
        let st1 := setItem st masteryKey
          (.obj [("ids", .arr (learned.map .str)), ("savedAt", .num now)])
        let len := (deckC s).length
        let s1 : CheckSession :=
          { s with learnedIds := learned,
                   index := if len = 0 then s.index else (s.index + 1) % len }
        (s1, st1)
    | none => (goNextC s, st)
  else
    match currentC s with
    | some cur =>
      if cur.id = "" then (goNextC s, st)
      else
        let st1 := checkSaveWrong st wrongKey cur.id
        let sd := requeue s.shuffledDeck cur.id
        if (deckC s).length = 1 then
          let s1 : CheckSession :=
            { s with shuffledDeck := sd, showResult := false, userInput := "", isCorrect := false }
          (s1, st1)
        else
          let s1 : CheckSession :=
            { s with shuffledDeck := sd, index := (s.index + 1) % (deckC s).length }
          (s1, st1)
    | none => (goNextC s, st)

/-! ## Sentence quiz session (SentenceCheckPage) -/

/-- The React state of the sentence-check screen that navigation
touches. -/
structure SentSession where
  shuffledDeck : List SentenceItem
  correctIds : List String
  index : Nat
  userInput : String
  showResult : Bool
  comparisonResult : List (String × Bool)
  deriving Repr, DecidableEq

/-- `deck = shuffledDeck.filter(i => !correctIds.has(i.id))`. -/
def sdeck (s : SentSession) : List SentenceItem :=
  s.shuffledDeck.filter (fun i => !s.correctIds.contains i.id)

/-- `goNext` (SentenceCheckPage): cyclic advance; when the step would
land on the same index while a result is showing, reset the input/result
state instead of moving. -/
def sGoNext (s : SentSession) : SentSession :=
  let len := (sdeck s).length
  if len = 0 then s
  else
    let nextIndex := (s.index + 1) % len
    if nextIndex == s.index && s.showResult then
      { s with showResult := false, userInput := "", comparisonResult := [] }
    else
      { s with index := nextIndex }

/-- `goPrev` (SentenceCheckPage): cyclic retreat (wrapping from 0 to the
last index), with the same same-index reset special case. -/
def sGoPrev (s : SentSession) : SentSession :=
  let len := (sdeck s).length
  if len = 0 then s
  else
    let prevIndex := (s.index + len - 1) % len
    if prevIndex == s.index && s.showResult then
      { s with showResult := false, userInput := "", comparisonResult := [] }
    else
      { s with index := prevIndex }

/-! ## CSV import invalidation (ListPage, src/utils/csv.ts) -/

/-- A JS `Map` keyed by `id`, as a list: `map.set` replaces in place,
new ids append. -/
def jsMapById (l : List StudyItem) : List StudyItem :=
  l.foldl (fun acc i =>
    if acc.any (fun j => j.id = i.id) then
      acc.map (fun j => if j.id = i.id then i else j)
    else acc ++ [i]) []

/-- The merge-by-id of `handleImportChange`:
`new Map([...prev, ...newItems].map(i => [i.id, i])).values()`. -/
def mergeById (prev newItems : List StudyItem) : List StudyItem :=
  jsMapById (prev ++ newItems)

/-- `areItemsDifferent(current, imported)` from `src/utils/csv.ts`. -/
def areItemsDifferent (current imported : List StudyItem) : Bool :=
  if current.length ≠ imported.length then true
  else
    let currentMap := jsMapById current
    let importedMap := jsMapById imported
    if currentMap.any (fun c => !importedMap.any (fun i => i.id = c.id)) then true
    else if importedMap.any (fun i => !currentMap.any (fun c => c.id = i.id)) then true
    else currentMap.any (fun c =>
      match importedMap.find? (fun i => i.id = c.id) with
      | some i => decide (c ≠ i)
      | none => true)

/-- `clearFlashcardStorage`. -/
def clearFlashcardStorage (st : Store) (ck : String) : Store :=
  removeItem st ("korean-study:flashcards:" ++ ck)

/-- `clearCheckStorage`: mastery record, wrong-only-mode mastery record
and the wrong-only-mode flag. -/
def clearCheckStorage (st : Store) (ck : String) : Store :=
  removeItem
    (removeItem
      (removeItem st ("korean-study:check:" ++ ck))
      ("korean-study:check-wrong:" ++ ck))
    ("korean-study:check-wrong-only:" ++ ck)

/-- `clearWrongItemsStorage`. -/
def clearWrongItemsStorage (st : Store) (ck : String) : Store :=
  removeItem st ("korean-study:wrong:" ++ ck)

/-- `handleImportChange` (ListPage), restricted to its observable
effects: the merged deck, and the storage clearing performed exactly
when the merge differs from the current deck. -/
def handleImportChange (st : Store) (category : String) (cardId : Option String)
    (prev newItems : List StudyItem) : List StudyItem × Store :=
  let mergedItems := mergeById prev newItems
  if areItemsDifferent prev mergedItems then
    let ck := categoryKey category cardId
    (mergedItems,
     clearWrongItemsStorage (clearCheckStorage (clearFlashcardStorage st ck) ck) ck)
  else
    (mergedItems, st)

/-! ## Concrete fixtures for witnesses and counterexamples -/

/-- A minimal vocabulary item. -/
def itemA : StudyItem := { id := "1", korean := "a", vietnamese := "", english := "" }

/-- A second vocabulary item with a distinct id. -/
def itemB : StudyItem := { id := "2", korean := "b", vietnamese := "", english := "" }

/-- The claim scenario's vocabulary item. -/
def loveItem : StudyItem :=
  { id := "1", korean := "사랑", vietnamese := "tình yêu", english := "love" }

/-- A minimal sentence item. -/
def sentA : SentenceItem := { id := "1", sentence := "a", vietnamese := "" }

/-- A second sentence item with a distinct id. -/
def sentB : SentenceItem := { id := "2", sentence := "b", vietnamese := "" }

/-- Two-item Check session at cursor 0 with a pending wrong input. -/
def twoItemSession : CheckSession :=
  { shuffledDeck := [itemA, itemB], learnedIds := [], index := 0,
    userInput := "zzz", showResult := false, isCorrect := false }

/-- The same session with the cursor on the last item. -/
def twoItemSessionAt1 : CheckSession := { twoItemSession with index := 1 }

/-- Single-item Check session with a pending wrong input. -/
def oneItemSession : CheckSession :=
  { shuffledDeck := [itemA], learnedIds := [], index := 0,
    userInput := "zzz", showResult := false, isCorrect := false }

/-- Two-item sentence session at cursor 0. -/
def twoSentSession : SentSession :=
  { shuffledDeck := [sentA, sentB], correctIds := [], index := 0,
    userInput := "", showResult := false, comparisonResult := [] }

/-! # Supporting lemmas -/

theorem mem_insertUnique (l : List String) (x y : String) :
    y ∈ insertUnique l x ↔ y ∈ l ∨ y = x := by
  unfold insertUnique
  by_cases hx : x ∈ l
  · simp only [if_pos hx]
    exact ⟨Or.inl, fun h => h.elim id (fun e => e ▸ hx)⟩
  · simp [if_neg hx]

theorem mem_foldl_insertUnique (l : List String) (acc : List String) (y : String) :
    y ∈ l.foldl insertUnique acc ↔ y ∈ acc ∨ y ∈ l := by
  induction l generalizing acc with
  | nil => simp
  | cons a t ih =>
    simp only [List.foldl_cons, ih, mem_insertUnique, List.mem_cons]
    tauto

theorem mem_jsSetOf (l : List String) (y : String) : y ∈ jsSetOf l ↔ y ∈ l := by
  unfold jsSetOf
  rw [mem_foldl_insertUnique]
  simp

theorem stringElems_map_str (xs : List String) : stringElems (xs.map .str) = xs := by
  induction xs with
  | nil => rfl
  | cons a t ih =>
    show a :: stringElems (t.map .str) = a :: t
    rw [ih]

theorem isWsChar_punctToSpace (c : Char) :
    isWsChar (punctToSpace c) = (isWsChar c || isPunct c) := by
  unfold punctToSpace
  cases hp : isPunct c
  · simp [hp]
  · simp only [if_pos rfl]
    simp [hp, isWsChar]

theorem wordsAux_punctToSpace (l : List Char) (acc : List Char) :
    wordsAux isWsChar (l.map punctToSpace) acc
      = wordsAux (fun c => isWsChar c || isPunct c) l acc := by
  induction l generalizing acc with
  | nil => rfl
  | cons c cs ih =>
    cases hp : isPunct c
    · have hc : punctToSpace c = c := by simp [punctToSpace, hp]
      simp only [List.map_cons, wordsAux, hc, hp, Bool.or_false]
      by_cases hw : isWsChar c = true
      · by_cases ha : acc.isEmpty <;> simp [hw, ha, ih]
      · simp [hw, ih]
    · have hc : punctToSpace c = ' ' := by simp [punctToSpace, hp]
      simp only [List.map_cons, wordsAux, hc, hp, Bool.or_true]
      have hs : isWsChar ' ' = true := rfl
      by_cases ha : acc.isEmpty <;> simp [hs, ha, ih]

theorem splitKoreanWords_eq_sep (s : String) :
    splitKoreanWords s = specTokensSep s := by
  unfold splitKoreanWords specTokensSep
  rw [wordsAux_punctToSpace]

theorem range_map_eq_zipPad (us ts : List String) :
    (List.range (max us.length ts.length)).map (fun i =>
      if i < us.length then
        ((us.get? i).getD "", tokEq ((us.get? i).getD "") ((ts.get? i).getD ""))
      else ("", false))
      = zipPad us ts := by
  induction us generalizing ts with
  | nil =>
    show _ = ts.map (fun _ => ("", false))
    simp [List.map_const', List.length_range]
  | cons u us ih =>
    cases ts with
    | nil =>
      have hz : zipPad (u :: us) [] = (u, tokEq u "") :: zipPad us [] := rfl
      rw [hz]
      simp only [List.length_cons, List.length_nil, Nat.max_zero,
        List.range_succ_eq_map, List.map_cons, List.map_map]
      congr 1
      · simp
      · rw [← ih []]
        simp only [List.length_nil, Nat.max_zero]
        apply List.map_congr_left
        intro i _
        simp [Nat.succ_lt_succ_iff, Function.comp]
    | cons t ts =>
      have hz : zipPad (u :: us) (t :: ts) = (u, tokEq u t) :: zipPad us ts := rfl
      rw [hz]
      simp only [List.length_cons, Nat.succ_max_succ,
        List.range_succ_eq_map, List.map_cons, List.map_map]
      congr 1
      · simp
      · rw [← ih ts]
        apply List.map_congr_left
        intro i _
        simp [Nat.succ_lt_succ_iff, Function.comp]

theorem compareSentences_eq_sep (u t : String) :
    compareSentences u t = specCompareSep u t := by
  unfold compareSentences specCompareSep
  rw [splitKoreanWords_eq_sep u, splitKoreanWords_eq_sep t]
  exact range_map_eq_zipPad (specTokensSep u) (specTokensSep t)

/-! # Claim C3: vocabulary comparison contract -/

/-- C3, counterexample.  The claim states that `checkAnswer`'s
comparison trims, lower-cases and newline-normalizes **both** sides, and
in particular that a target compared against itself is true regardless
of whitespace padding.  The code only trims the user side: a target with
a leading space fails against itself. -/
theorem claim_C3_cex :
    vocabCorrect " a" " a" = false ∧ specVocabCorrect " a" " a" = true := by
  decide

/-- C3, amended.  `checkAnswer` returns true iff the trimmed, lower-cased
user input equals the lower-cased (untrimmed, not newline-normalized)
target; consequently target-vs-target is true whenever the target
carries no surrounding whitespace, and empty input never matches a
non-empty target. -/
theorem claim_C3_amended :
    (∀ u t : String, (vocabCorrect u t = true ↔ jsToLower (jsTrim u) = jsToLower t))
    ∧ (∀ t : String, jsTrim t = t → vocabCorrect t t = true)
    ∧ (∀ t : String, t ≠ "" → vocabCorrect "" t = false) := by
  refine ⟨fun u t => ?_, fun t h => ?_, fun t h => ?_⟩
  · exact beq_iff_eq
  · unfold vocabCorrect
    rw [h]
    simp
  · unfold vocabCorrect
    rw [show jsToLower (jsTrim "") = "" from rfl, beq_eq_false_iff_ne]
    intro he
    apply h
    have hmap : t.data.map Char.toLower = [] := by
      simpa [jsToLower] using (congrArg String.data he).symm
    exact String.ext (by simpa using hmap)

/-- C3, witness for the amended theorem. -/
theorem claim_C3_witness :
    vocabCorrect "Ab" "Ab" = true ∧ vocabCorrect "" "ab" = false :=
  ⟨claim_C3_amended.2.1 "Ab" rfl, claim_C3_amended.2.2 "ab" (by decide)⟩

/-! # Claim C4: sentence comparison contract -/

/-- C4, counterexample.  The specification's reference definition strips
(removes) the punctuation characters before splitting, so `"a.b"`
tokenizes as the single token `ab`; the code replaces punctuation with a
space, so it tokenizes as two tokens `a`, `b`, and the two comparisons
disagree on the input pair `("ab", "a.b")`. -/
theorem claim_C4_cex :
    compareSentences "ab" "a.b" ≠ specCompareDel "ab" "a.b" := by
  decide

/-- C4, amended.  `compareSentences` equals the reference positional
definition with punctuation acting as an additional *separator* (each of
`.,!?;:` is replaced by a space before splitting on whitespace runs)
rather than being deleted; positions past the user's tokens are
`("", false)`; the answer is fully correct iff the comparison is
non-empty and every position is correct; and the claim's concrete Korean
example behaves exactly as stated. -/
theorem claim_C4_amended :
    (∀ u t : String, compareSentences u t = specCompareSep u t)
    ∧ (∀ u t : String, allCorrectB (compareSentences u t) = true ↔
        compareSentences u t ≠ [] ∧ ∀ r ∈ compareSentences u t, r.2 = true)
    ∧ compareSentences "나는 학교 간다" "나는 학교에 간다"
        = [("나는", true), ("학교", false), ("간다", true)]
    ∧ allCorrectB (compareSentences "나는 학교 간다" "나는 학교에 간다") = false := by
  refine ⟨compareSentences_eq_sep, fun u t => ?_, by decide, by decide⟩
  unfold allCorrectB
  rw [Bool.and_eq_true, decide_eq_true_iff, List.all_eq_true]
  rw [List.length_pos]

/-- C4, witness exercising the amended equivalence and the fully-correct
characterization at concrete inputs. -/
theorem claim_C4_witness :
    compareSentences "나는 간다" "나는 간다." = specCompareSep "나는 간다" "나는 간다."
    ∧ (allCorrectB (compareSentences "나는 간다" "나는 간다.") = true ↔
        compareSentences "나는 간다" "나는 간다." ≠ []
        ∧ ∀ r ∈ compareSentences "나는 간다" "나는 간다.", r.2 = true) :=
  ⟨claim_C4_amended.1 "나는 간다" "나는 간다.",
   claim_C4_amended.2.1 "나는 간다" "나는 간다."⟩

/-! # Claim C5: 8-hour expiry with cleanup-on-read -/

/-- C5, confirmed.  A wrong record (`loadWrongIds`) or sentence mastery
record (`loadCorrectSentences`) whose `savedAt` lies more than 8 hours
in the past loads as the empty set, and the load deletes the underlying
storage key (and touches nothing else). -/
theorem claim_C5_expiry
    (now savedAt : Int) (st : Store) (category : String) (cardId : Option String)
    (ids : List JsonVal) (wom : Bool)
    (h : EIGHT_HOURS_MS < now - savedAt) :
    (let key := wrongKeyOf category cardId
     let st0 := setItem st key (.obj [("ids", .arr ids), ("savedAt", .num savedAt)])
     let r := loadWrongIds now st0 category cardId
     r.1 = [] ∧ r.2 key = none ∧ ∀ k, k ≠ key → r.2 k = st0 k)
    ∧ (let key := sentenceCorrectKey cardId wom
       let st0 := setItem st key (.obj [("ids", .arr ids), ("savedAt", .num savedAt)])
       let r := loadCorrectSentences now st0 cardId wom
       r.1 = [] ∧ r.2 key = none ∧ ∀ k, k ≠ key → r.2 k = st0 k) := by
  have hexp : savedAtExpired now (some (.num savedAt)) = true := by
    simp [savedAtExpired, h]
  constructor
  · set key := wrongKeyOf category cardId with hkey
    have hget : getItem (setItem st key (.obj [("ids", .arr ids), ("savedAt", .num savedAt)])) key
        = some (.obj [("ids", .arr ids), ("savedAt", .num savedAt)]) := by
      simp [getItem, setItem]
    refine ⟨?_, ?_, ?_⟩ <;>
      simp_all [loadWrongIds, hget, jget, hexp, removeItem]
  · set key := sentenceCorrectKey cardId wom with hkey
    have hget : getItem (setItem st key (.obj [("ids", .arr ids), ("savedAt", .num savedAt)])) key
        = some (.obj [("ids", .arr ids), ("savedAt", .num savedAt)]) := by
      simp [getItem, setItem]
    refine ⟨?_, ?_, ?_⟩ <;>
      simp_all [loadCorrectSentences, hget, jget, hexp, removeItem]

/-- C5, witness: a record saved 8 hours and 1 millisecond ago loads as
empty and its key is gone. -/
theorem claim_C5_witness :
    (loadWrongIds (EIGHT_HOURS_MS + 1)
        (setItem emptyStore (wrongKeyOf "vocab" none)
          (.obj [("ids", .arr [.str "a"]), ("savedAt", .num 0)])) "vocab" none).1 = []
    ∧ (loadWrongIds (EIGHT_HOURS_MS + 1)
        (setItem emptyStore (wrongKeyOf "vocab" none)
          (.obj [("ids", .arr [.str "a"]), ("savedAt", .num 0)])) "vocab" none).2
        (wrongKeyOf "vocab" none) = none :=
  ⟨(claim_C5_expiry (EIGHT_HOURS_MS + 1) 0 emptyStore "vocab" none [.str "a"] false
      (by decide)).1.1,
   (claim_C5_expiry (EIGHT_HOURS_MS + 1) 0 emptyStore "vocab" none [.str "a"] false
      (by decide)).1.2.1⟩

/-! # Claim C6: legacy bare-array migration -/

/-- The computation `loadWrongIds` performs on a legacy bare-array
record: return the id set and rewrite the key to the timestamped
format. -/
theorem loadWrongIds_legacy
    (now : Int) (st : Store) (category : String) (cardId : Option String)
    (xs : List String) :
    loadWrongIds now (setItem st (wrongKeyOf category cardId) (.arr (xs.map .str)))
        category cardId
      = (jsSetOf xs,
         setItem (setItem st (wrongKeyOf category cardId) (.arr (xs.map .str)))
           (wrongKeyOf category cardId)
           (.obj [("ids", .arr (xs.map .str)), ("savedAt", .num now)])) := by
  unfold loadWrongIds
  simp [getItem, setItem, stringElems_map_str]

/-- C6, confirmed.  Loading a wrong record stored in the legacy bare
array format yields exactly the stored ids (as a JS `Set`, i.e. first
occurrences in order) and rewrites the key in place to the timestamped
`{ids, savedAt}` format stamped with the current time; no other key is
touched. -/
theorem claim_C6_migration
    (now : Int) (st : Store) (category : String) (cardId : Option String)
    (xs : List String) :
    let key := wrongKeyOf category cardId
    let st0 := setItem st key (.arr (xs.map .str))
    let r := loadWrongIds now st0 category cardId
    r.1 = jsSetOf xs
    ∧ (∀ y, y ∈ r.1 ↔ y ∈ xs)
    ∧ r.2 key = some (.obj [("ids", .arr (xs.map .str)), ("savedAt", .num now)])
    ∧ (∀ k, k ≠ key → r.2 k = st0 k) := by
  refine ⟨?_, ?_, ?_, ?_⟩
  · rw [loadWrongIds_legacy]
  · intro y
    rw [loadWrongIds_legacy]
    exact mem_jsSetOf xs y
  · rw [loadWrongIds_legacy]
    simp [setItem]
  · intro k hk
    rw [loadWrongIds_legacy]
    simp [setItem, hk]

/-- C6, witness at the claim's own example record. -/
theorem claim_C6_witness :
    (loadWrongIds 42 (setItem emptyStore (wrongKeyOf "vocab" none)
        (.arr [.str "a", .str "b"])) "vocab" none).1 = jsSetOf ["a", "b"]
    ∧ (loadWrongIds 42 (setItem emptyStore (wrongKeyOf "vocab" none)
        (.arr [.str "a", .str "b"])) "vocab" none).2 (wrongKeyOf "vocab" none)
      = some (.obj [("ids", .arr [.str "a", .str "b"]), ("savedAt", .num 42)]) :=
  ⟨(claim_C6_migration 42 emptyStore "vocab" none ["a", "b"]).1,
   (claim_C6_migration 42 emptyStore "vocab" none ["a", "b"]).2.2.1⟩

/-! # Claim C10: wrong-only mode reads the record as a bare array -/

/-- C10, confirmed.  The wrong-only candidate filter of `CheckPage`
parses the wrong record as a bare array; on a record in the timestamped
`{ids, savedAt}` object format — as written by `saveWrongIds` and as
produced by the legacy migration of `loadWrongIds` — the internal
`new Set(object)` error is swallowed and the filter yields the empty
set, even though the record holds the ids. -/
theorem claim_C10_wrong_only_read
    (now : Int) (st : Store) (category : String) (cardId : Option String)
    (ids : List String) :
    wrongIdsMemoRead (saveWrongIds now st category cardId ids) category cardId true = []
    ∧ (saveWrongIds now st category cardId ids) (wrongKeyOf category cardId)
        = some (.obj [("ids", .arr (ids.map .str)), ("savedAt", .num now)])
    ∧ wrongIdsMemoRead
        ((loadWrongIds now (setItem st (wrongKeyOf category cardId) (.arr (ids.map .str)))
          category cardId).2) category cardId true = [] := by
  refine ⟨?_, ?_, ?_⟩
  · unfold wrongIdsMemoRead saveWrongIds
    simp [getItem, setItem]
  · unfold saveWrongIds
    simp [setItem]
  · rw [loadWrongIds_legacy]
    unfold wrongIdsMemoRead
    simp [getItem, setItem]

/-! # Claim C8: deck-changing import clears mastery and wrong records -/

/-- Two keys built from distinct literal heads over the same scope
fragment are distinct. -/
theorem key_ne_of_head_ne (p q ck : String) (hne : p.data ≠ q.data) :
    p ++ ck ≠ q ++ ck := by
  intro h
  apply hne
  have hd := congrArg String.data h
  rw [String.data_append, String.data_append] at hd
  exact List.append_cancel_right hd

/-- C8, confirmed.  When the merged import differs from the current deck
(by `areItemsDifferent`), `handleImportChange` deletes both mastery
records (normal and wrong-only) and the wrong record for the scope;
when the merge is identical, the store is untouched. -/
theorem claim_C8_import
    (st : Store) (category : String) (cardId : Option String)
    (prev newItems : List StudyItem) :
    let merged := mergeById prev newItems
    let r := handleImportChange st category cardId prev newItems
    let ck := categoryKey category cardId
    r.1 = merged
    ∧ (areItemsDifferent prev merged = true →
        r.2 ("korean-study:check:" ++ ck) = none
        ∧ r.2 ("korean-study:check-wrong:" ++ ck) = none
        ∧ r.2 ("korean-study:check-wrong-only:" ++ ck) = none
        ∧ r.2 ("korean-study:wrong:" ++ ck) = none)
    ∧ (areItemsDifferent prev merged = false → r.2 = st) := by
  unfold handleImportChange
  cases hd : areItemsDifferent prev (mergeById prev newItems)
  · simp [hd]
  · simp only [hd, if_pos rfl]
    refine ⟨rfl, fun _ => ?_, fun hf => by cases hf⟩
    set ck := categoryKey category cardId
    unfold clearWrongItemsStorage clearCheckStorage clearFlashcardStorage
    have h1 : ("korean-study:check:" ++ ck) ≠ ("korean-study:wrong:" ++ ck) :=
      key_ne_of_head_ne _ _ _ (by decide)
    have h2 : ("korean-study:check:" ++ ck) ≠ ("korean-study:check-wrong-only:" ++ ck) :=
      key_ne_of_head_ne _ _ _ (by decide)
    have h3 : ("korean-study:check:" ++ ck) ≠ ("korean-study:check-wrong:" ++ ck) :=
      key_ne_of_head_ne _ _ _ (by decide)
    have h4 : ("korean-study:check-wrong:" ++ ck) ≠ ("korean-study:wrong:" ++ ck) :=
      key_ne_of_head_ne _ _ _ (by decide)
    have h5 : ("korean-study:check-wrong:" ++ ck) ≠ ("korean-study:check-wrong-only:" ++ ck) :=
      key_ne_of_head_ne _ _ _ (by decide)
    have h6 : ("korean-study:check-wrong-only:" ++ ck) ≠ ("korean-study:wrong:" ++ ck) :=
      key_ne_of_head_ne _ _ _ (by decide)
    refine ⟨?_, ?_, ?_, ?_⟩ <;> simp [removeItem, h1, h2, h3, h4, h5, h6]

/-- C8, witness: importing one item into an empty deck changes it, and
the mastery key that was set beforehand is gone afterwards; importing
nothing into the empty deck leaves the store alone. -/
theorem claim_C8_witness :
    (handleImportChange
        (setItem emptyStore ("korean-study:check:" ++ categoryKey "vocab" none) (.num 1))
        "vocab" none [] [loveItem]).2
      ("korean-study:check:" ++ categoryKey "vocab" none) = none
    ∧ (handleImportChange emptyStore "vocab" none [] []).2 = emptyStore :=
  ⟨((claim_C8_import
      (setItem emptyStore ("korean-study:check:" ++ categoryKey "vocab" none) (.num 1))
      "vocab" none [] [loveItem]).2.1 (by decide)).1,
   (claim_C8_import emptyStore "vocab" none [] []).2.2 (by decide)⟩

/-! # Claim C9: manual navigation -/

/-- C9, counterexample.  In the Check flow, `goPrev` at cursor 0 on a
two-item filtered deck is a no-op: it does **not** wrap to the last
index as the claim states. -/
theorem claim_C9_cex :
    (deckC twoItemSession).length = 2 ∧ twoItemSession.index = 0
      ∧ (goPrevC twoItemSession).index ≠ (deckC twoItemSession).length - 1
      ∧ goPrevC twoItemSession = twoItemSession := by
  decide

/-- C9, amended.  `goNext` moves the cursor cyclically in both flows
(from the last index it wraps to 0).  `goPrev` wraps cyclically in the
Sentence flow, but in the Check flow it is a no-op whenever the cursor
is at index 0 (it never wraps backwards).  With an empty filtered deck
all four are no-ops; with a single-item deck the cursor never moves, and
in the Sentence flow the same-index step clears the answered state when
a result is showing. -/
theorem claim_C9_nav :
    (∀ s : CheckSession, (deckC s).length = 0 → goNextC s = s ∧ goPrevC s = s)
    ∧ (∀ s : CheckSession, (deckC s).length ≠ 0 →
        (goNextC s).index = (s.index + 1) % (deckC s).length)
    ∧ (∀ s : CheckSession, s.index = 0 → goPrevC s = s)
    ∧ (∀ s : CheckSession, (deckC s).length ≠ 0 → s.index ≠ 0 →
        (goPrevC s).index = (s.index + (deckC s).length - 1) % (deckC s).length)
    ∧ (∀ s : CheckSession, (deckC s).length = 1 → s.index = 0 →
        goNextC s = s ∧ goPrevC s = s)
    ∧ (∀ s : SentSession, (sdeck s).length = 0 → sGoNext s = s ∧ sGoPrev s = s)
    ∧ (∀ s : SentSession, 2 ≤ (sdeck s).length → s.index < (sdeck s).length →
        (sGoNext s).index = (s.index + 1) % (sdeck s).length
        ∧ (sGoPrev s).index = (s.index + (sdeck s).length - 1) % (sdeck s).length)
    ∧ (∀ s : SentSession, (sdeck s).length = 1 → s.index = 0 → s.showResult = true →
        sGoNext s = { s with showResult := false, userInput := "", comparisonResult := [] }
        ∧ sGoPrev s = { s with showResult := false, userInput := "", comparisonResult := [] })
    ∧ (∀ s : SentSession, (sdeck s).length = 1 → s.index = 0 → s.showResult = false →
        sGoNext s = s ∧ sGoPrev s = s) := by
  refine ⟨fun s h => ?_, fun s h => ?_, fun s h => ?_, fun s h h' => ?_,
    fun s h h' => ?_, fun s h => ?_, fun s h h' => ?_, fun s h h' h'' => ?_,
    fun s h h' h'' => ?_⟩
  · unfold goNextC goPrevC
    simp [h]
  · unfold goNextC
    simp [h]
  · unfold goPrevC
    simp [h]
  · unfold goPrevC
    simp [h, h']
  · obtain ⟨sd, li, ix, ui, sr, ic⟩ := s
    simp only at h'
    subst h'
    unfold goNextC goPrevC
    simp [h]
  · unfold sGoNext sGoPrev
    simp [h]
  · have hlen : (sdeck s).length ≠ 0 := by omega
    have hnext : (s.index + 1) % (sdeck s).length ≠ s.index := by
      rcases Nat.lt_or_ge (s.index + 1) (sdeck s).length with hlt | hge
      · rw [Nat.mod_eq_of_lt hlt]; omega
      · have he : s.index + 1 = (sdeck s).length := by omega
        rw [he, Nat.mod_self]; omega
    have hprev : (s.index + (sdeck s).length - 1) % (sdeck s).length ≠ s.index := by
      rcases Nat.eq_zero_or_pos s.index with h0 | h1
      · rw [h0]
        rw [Nat.zero_add, Nat.mod_eq_of_lt (by omega)]
        omega
      · rw [Nat.mod_eq_sub_mod (by omega), Nat.mod_eq_of_lt (by omega)]
        omega
    constructor
    · unfold sGoNext
      simp [hlen, beq_eq_false_iff_ne.mpr hnext]
    · unfold sGoPrev
      simp [hlen, beq_eq_false_iff_ne.mpr hprev]
  · unfold sGoNext sGoPrev
    simp [h, h', h'']
  · obtain ⟨sd, ci, ix, ui, sr, cr⟩ := s
    simp only at h' h''
    subst h'
    subst h''
    unfold sGoNext sGoPrev
    simp [h]

/-- C9, witness exercising the amended navigation facts on concrete
two-item sessions. -/
theorem claim_C9_witness :
    (goNextC twoItemSessionAt1).index = 0 ∧ (sGoPrev twoSentSession).index = 1 := by
  constructor
  · rw [claim_C9_nav.2.1 _ (by decide)]
    decide
  · rw [(claim_C9_nav.2.2.2.2.2.2.1 _ (by decide) (by decide)).2]
    decide

/-! # Claim C7: persisting the wrong record on an incorrect answer -/

/-- `loadWrongIds` on a fresh (non-expired) timestamped record returns
its ids without touching the store. -/
theorem loadWrongIds_fresh
    (now savedAt : Int) (st : Store) (category : String) (cardId : Option String)
    (ids : List String)
    (hfresh : savedAtExpired now (some (.num savedAt)) = false) :
    loadWrongIds now
      (setItem st (wrongKeyOf category cardId)
        (.obj [("ids", .arr (ids.map .str)), ("savedAt", .num savedAt)]))
      category cardId
    = (jsSetOf ids,
       setItem st (wrongKeyOf category cardId)
         (.obj [("ids", .arr (ids.map .str)), ("savedAt", .num savedAt)])) := by
  unfold loadWrongIds
  simp [getItem, setItem, jget, hfresh, stringElems_map_str]

/-- C7, counterexample.  In the Check flow, an incorrect answer followed
by `nextQuestion` leaves a wrong record that is stored in the
timestamped `{ids, savedAt}` format completely unchanged: the update
parses the record as a bare array, `new Set(object)` throws, and the
`catch {}` swallows the write, so the answered id is never added and
nothing is re-stamped — contradicting the claim for the Check flow. -/
theorem claim_C7_cex :
    let key := wrongKeyOf "vocab" none
    let st0 := setItem emptyStore key (.obj [("ids", .arr [.str "9"]), ("savedAt", .num 5)])
    let r := nextQuestion 999 "korean-study:check:vocab" key st0 (checkAnswerC oneItemSession)
    (checkAnswerC oneItemSession).isCorrect = false
    ∧ r.2 key = some (.obj [("ids", .arr [.str "9"]), ("savedAt", .num 5)]) :=
  ⟨rfl, rfl⟩

/-- C7, amended.  On an incorrect answer, the Sentence Check flow adds
the current id to the wrong record and rewrites it in the timestamped
`{ids, savedAt}` format stamped with the current time, never removing an
id.  The Check (vocab/grammar) flow instead reads the record as a bare
array and writes it back as a bare array with the id added (no
timestamp), also never removing an id — and when the stored record is in
the timestamped object format, the update throws internally, is
swallowed, and the record is left unchanged with the id unrecorded. -/
theorem claim_C7_amended :
    (∀ (now savedAt : Int) (st : Store) (cardId : Option String) (id : String)
        (ids : List String),
      savedAtExpired now (some (.num savedAt)) = false →
      (sentenceSaveWrong now
          (setItem st (wrongKeyOf "sentences" cardId)
            (.obj [("ids", .arr (ids.map .str)), ("savedAt", .num savedAt)]))
          cardId id) (wrongKeyOf "sentences" cardId)
        = some (.obj [("ids", .arr ((insertUnique (jsSetOf ids) id).map .str)),
                      ("savedAt", .num now)])
      ∧ id ∈ insertUnique (jsSetOf ids) id
      ∧ ∀ y ∈ ids, y ∈ insertUnique (jsSetOf ids) id)
    ∧ (∀ (now : Int) (cardId : Option String) (id : String),
      (sentenceSaveWrong now emptyStore cardId id) (wrongKeyOf "sentences" cardId)
        = some (.obj [("ids", .arr [.str id]), ("savedAt", .num now)]))
    ∧ (∀ (st : Store) (key id : String) (xs : List String),
      (checkSaveWrong (setItem st key (.arr (xs.map .str))) key id) key
        = some (.arr ((insertUnique (jsSetOf xs) id).map .str))
      ∧ id ∈ insertUnique (jsSetOf xs) id
      ∧ ∀ y ∈ xs, y ∈ insertUnique (jsSetOf xs) id)
    ∧ (∀ (st : Store) (key id : String) (fields : List (String × JsonVal)),
      checkSaveWrong (setItem st key (.obj fields)) key id
        = setItem st key (.obj fields)) := by
  refine ⟨fun now savedAt st cardId id ids hfresh => ⟨?_, ?_, ?_⟩,
    fun now cardId id => ?_, fun st key id xs => ⟨?_, ?_, ?_⟩,
    fun st key id fields => ?_⟩
  · unfold sentenceSaveWrong
    rw [loadWrongIds_fresh now savedAt st "sentences" cardId ids hfresh]
    unfold saveWrongIds
    simp [setItem]
  · exact (mem_insertUnique _ id id).mpr (Or.inr rfl)
  · intro y hy
    exact (mem_insertUnique _ id y).mpr (Or.inl ((mem_jsSetOf ids y).mpr hy))
  · unfold sentenceSaveWrong loadWrongIds
    simp only [getItem, emptyStore]
    unfold saveWrongIds
    simp [setItem, insertUnique]
  · unfold checkSaveWrong
    simp [getItem, setItem, stringElems_map_str]
  · exact (mem_insertUnique _ id id).mpr (Or.inr rfl)
  · intro y hy
    exact (mem_insertUnique _ id y).mpr (Or.inl ((mem_jsSetOf xs y).mpr hy))
  · unfold checkSaveWrong
    simp [getItem, setItem]

/-- C7, witness: both write paths at concrete records. -/
theorem claim_C7_witness :
    (sentenceSaveWrong 10
        (setItem emptyStore (wrongKeyOf "sentences" none)
          (.obj [("ids", .arr [.str "a"]), ("savedAt", .num 5)]))
        none "b") (wrongKeyOf "sentences" none)
      = some (.obj [("ids", .arr ((insertUnique (jsSetOf ["a"]) "b").map .str)),
                    ("savedAt", .num 10)])
    ∧ (checkSaveWrong (setItem emptyStore "k" (.arr [.str "a"])) "k" "b") "k"
      = some (.arr ((insertUnique (jsSetOf ["a"]) "b").map .str)) := by
  constructor
  · exact (claim_C7_amended.1 10 5 emptyStore none "b" ["a"] (by decide)).1
  · have h := (claim_C7_amended.2.2.1 emptyStore "k" "b" ["a"]).1
    simpa using h

/-! # Claims C1 and C2: requeue behaviour of `nextQuestion` -/

theorem requeue_eq_eraseP (l : List StudyItem) (x : StudyItem)
    (hinj : ∀ y ∈ l, y.id = x.id → y = x) (hx : x ∈ l) :
    requeue l x.id = l.eraseP (fun y => y.id == x.id) ++ [x] := by
  induction l with
  | nil => cases hx
  | cons a t ih =>
    by_cases ha : a.id = x.id
    · have hax : a = x := hinj a (List.mem_cons_self a t) ha
      rw [requeue, if_pos ha, List.eraseP_cons]
      simp [ha, hax]
    · rw [requeue, if_neg ha, List.eraseP_cons]
      have hpa : (a.id == x.id) = false := beq_eq_false_iff_ne.mpr ha
      rw [hpa, cond_false]
      have hx' : x ∈ t := by
        rcases List.mem_cons.mp hx with rfl | h
        · exact absurd rfl ha
        · exact h
      rw [ih (fun y hy => hinj y (List.mem_cons_of_mem _ hy)) hx']
      rfl

theorem filter_eraseP_comm (p q : StudyItem → Bool) (l : List StudyItem)
    (h : ∀ y, p y = true → q y = true) :
    (l.eraseP p).filter q = (l.filter q).eraseP p := by
  induction l with
  | nil => rfl
  | cons a t ih =>
    rw [List.eraseP_cons, List.filter_cons]
    by_cases hpa : p a = true
    · rw [hpa, cond_true, if_pos (h a hpa), List.eraseP_cons, hpa, cond_true]
    · have hpa' : p a = false := by revert hpa; cases p a <;> simp
      rw [hpa', cond_false, List.filter_cons]
      by_cases hqa : q a = true
      · rw [if_pos hqa, if_pos hqa, List.eraseP_cons, hpa', cond_false, ih]
      · rw [if_neg hqa, if_neg hqa, ih]

theorem eraseP_eq_eraseIdx (d : List StudyItem) (x : StudyItem) (i : Nat)
    (hnd : (d.map (fun y => y.id)).Nodup) (hget : d[i]? = some x) :
    d.eraseP (fun y => y.id == x.id) = d.eraseIdx i := by
  induction d generalizing i with
  | nil => simp at hget
  | cons a t ih =>
    rw [List.map_cons] at hnd
    cases i with
    | zero =>
      simp only [List.getElem?_cons_zero, Option.some.injEq] at hget
      subst hget
      rw [List.eraseP_cons]
      simp
    | succ j =>
      simp only [List.getElem?_cons_succ] at hget
      have hx : x ∈ t := List.getElem?_mem hget
      have ha : a.id ≠ x.id := by
        intro he
        exact (List.nodup_cons.mp hnd).1 (he ▸ List.mem_map_of_mem _ hx)
      rw [List.eraseP_cons, beq_eq_false_iff_ne.mpr ha, cond_false,
        List.eraseIdx_cons_succ, ih j (List.nodup_cons.mp hnd).2 hget]

/-- The filtered deck after requeuing the item at filtered position `i`:
the item moves from position `i` to the end, everything else keeps its
relative order. -/
theorem deckC_requeue (sd : List StudyItem) (learned : List String)
    (x : StudyItem) (i : Nat)
    (hnd : (sd.map (fun y => y.id)).Nodup)
    (hget : (sd.filter (fun j => !learned.contains j.id))[i]? = some x) :
    (requeue sd x.id).filter (fun j => !learned.contains j.id)
      = (sd.filter (fun j => !learned.contains j.id)).eraseIdx i ++ [x] := by
  have hxfil : x ∈ sd.filter (fun j => !learned.contains j.id) :=
    List.getElem?_mem hget
  have hxq : (!learned.contains x.id) = true := (List.mem_filter.mp hxfil).2
  have hxmem : x ∈ sd := (List.mem_filter.mp hxfil).1
  have hinj : ∀ y ∈ sd, y.id = x.id → y = x :=
    fun y hy he => List.inj_on_of_nodup_map hnd hy hxmem he
  have hndfil : ((sd.filter (fun j => !learned.contains j.id)).map (fun y => y.id)).Nodup :=
    ((List.filter_sublist sd).map (fun y => y.id)).nodup hnd
  calc (requeue sd x.id).filter (fun j => !learned.contains j.id)
      = ((sd.eraseP (fun y => y.id == x.id)) ++ [x]).filter
          (fun j => !learned.contains j.id) := by
        rw [requeue_eq_eraseP sd x hinj hxmem]
    _ = (sd.eraseP (fun y => y.id == x.id)).filter (fun j => !learned.contains j.id)
          ++ [x] := by
        rw [List.filter_append]
        simp
        simpa using hxq
    _ = (sd.filter (fun j => !learned.contains j.id)).eraseP
          (fun y => y.id == x.id) ++ [x] := by
        rw [filter_eraseP_comm _ _ sd (fun y hy => by rw [eq_of_beq hy]; exact hxq)]
    _ = (sd.filter (fun j => !learned.contains j.id)).eraseIdx i ++ [x] := by
        rw [eraseP_eq_eraseIdx _ x i hndfil hget]

/-- `current` when the cursor is in bounds. -/
theorem currentC_eq_of_getElem (s : CheckSession) (x : StudyItem)
    (hget : (deckC s)[s.index]? = some x) : currentC s = some x := by
  unfold currentC
  rw [List.get?_eq_getElem?, hget]

/-- `checkAnswer` on a session with a current item only records the
comparison outcome. -/
theorem checkAnswerC_of_current (s : CheckSession) (x : StudyItem)
    (hcur : currentC s = some x) :
    checkAnswerC s
      = { s with isCorrect := vocabCorrect s.userInput x.korean, showResult := true } := by
  unfold checkAnswerC
  rw [hcur]

/-- `nextQuestion` after an incorrect answer, single-item filtered deck:
requeue and reset in place. -/
theorem nextQuestion_wrong_single_state (now : Int) (mk wk : String) (st : Store)
    (s : CheckSession) (x : StudyItem)
    (hic : s.isCorrect = false) (hcur : currentC s = some x) (hxid : x.id ≠ "")
    (hlen : (deckC s).length = 1) :
    (nextQuestion now mk wk st s).1
      = { s with shuffledDeck := requeue s.shuffledDeck x.id,
                 showResult := false, userInput := "", isCorrect := false } := by
  unfold nextQuestion
  rw [hic, hcur]
  simp [hxid, hlen]

/-- `nextQuestion` after an incorrect answer, larger filtered deck:
requeue and advance the cursor over the pre-update deck length. -/
theorem nextQuestion_wrong_multi_state (now : Int) (mk wk : String) (st : Store)
    (s : CheckSession) (x : StudyItem)
    (hic : s.isCorrect = false) (hcur : currentC s = some x) (hxid : x.id ≠ "")
    (hlen : (deckC s).length ≠ 1) :
    (nextQuestion now mk wk st s).1
      = { s with shuffledDeck := requeue s.shuffledDeck x.id,
                 index := (s.index + 1) % (deckC s).length } := by
  unfold nextQuestion
  rw [hic, hcur]
  simp [hxid, hlen]

/-- Iterating `goNext` leaves the filtered deck unchanged and moves the
cursor by `k` modulo the deck length. -/
theorem goNextC_iterate (k : Nat) (u : CheckSession)
    (h0 : (deckC u).length ≠ 0) (hu : u.index < (deckC u).length) :
    deckC (goNextC^[k] u) = deckC u
    ∧ (goNextC^[k] u).index = (u.index + k) % (deckC u).length := by
  induction k generalizing u with
  | zero =>
    simp [Nat.mod_eq_of_lt hu]
  | succ k ih =>
    rw [Function.iterate_succ_apply]
    have hdg : deckC (goNextC u) = deckC u := by
      unfold goNextC
      rw [if_neg h0]
      rfl
    have hig : (goNextC u).index = (u.index + 1) % (deckC u).length := by
      unfold goNextC
      rw [if_neg h0]
    have h0' : (deckC (goNextC u)).length ≠ 0 := by rw [hdg]; exact h0
    have hu' : (goNextC u).index < (deckC (goNextC u)).length := by
      rw [hdg, hig]
      exact Nat.mod_lt _ (Nat.pos_of_ne_zero h0)
    obtain ⟨d1, i1⟩ := ih (goNextC u) h0' hu'
    refine ⟨by rw [d1, hdg], ?_⟩
    rw [i1, hdg, hig, Nat.mod_add_mod]
    congr 1
    omega

/-! ## Claim C2 -/

/-- C2, confirmed.  With a single-item filtered deck, an incorrect
answer followed by `nextQuestion` keeps presenting the same item with
the typed input and answered state cleared; the cursor stays at 0 and
the filtered deck still has exactly one item. -/
theorem claim_C2_single (now : Int) (mk wk : String) (st : Store)
    (s : CheckSession) (x : StudyItem)
    (hnd : (s.shuffledDeck.map (fun y => y.id)).Nodup)
    (hlen : (deckC s).length = 1)
    (hget : (deckC s)[s.index]? = some x)
    (hxid : x.id ≠ "")
    (hwrong : vocabCorrect s.userInput x.korean = false) :
    let t := (nextQuestion now mk wk st (checkAnswerC s)).1
    currentC t = some x ∧ t.userInput = "" ∧ t.showResult = false
    ∧ t.isCorrect = false ∧ s.index = 0 ∧ t.index = 0
    ∧ (deckC t).length = 1 := by
  intro t
  have hi : s.index < (deckC s).length := (List.getElem?_eq_some.mp hget).1
  have hi0 : s.index = 0 := by omega
  have hcur : currentC s = some x := currentC_eq_of_getElem s x hget
  have hs' := checkAnswerC_of_current s x hcur
  set s' := checkAnswerC s with hdefs'
  have hfields : s'.shuffledDeck = s.shuffledDeck ∧ s'.learnedIds = s.learnedIds
      ∧ s'.index = s.index ∧ s'.isCorrect = vocabCorrect s.userInput x.korean := by
    rw [hs']
    exact ⟨rfl, rfl, rfl, rfl⟩
  have hdeck' : deckC s' = deckC s := by
    unfold deckC
    rw [hfields.1, hfields.2.1]
  have hic : s'.isCorrect = false := by rw [hfields.2.2.2, hwrong]
  have hcur' : currentC s' = some x := by
    apply currentC_eq_of_getElem
    rw [hdeck', hfields.2.2.1]
    exact hget
  have hlen' : (deckC s').length = 1 := by rw [hdeck']; exact hlen
  have ht : t = { s' with shuffledDeck := requeue s'.shuffledDeck x.id, showResult := false, userInput := "", isCorrect := false } :=
    nextQuestion_wrong_single_state now mk wk st s' x hic hcur' hxid hlen'
  have hdeckt : deckC t = (deckC s).eraseIdx s.index ++ [x] := by
    rw [ht]
    show (requeue s'.shuffledDeck x.id).filter _ = _
    rw [hfields.1, hfields.2.1]
    exact deckC_requeue s.shuffledDeck s.learnedIds x s.index hnd hget
  have hdeckx : deckC t = [x] := by
    rw [hdeckt, hi0]
    obtain ⟨a, ha⟩ := List.length_eq_one.mp hlen
    rw [ha]
    rw [ha, hi0] at hget
    simp only [List.getElem?_cons_zero, Option.some.injEq] at hget
    simp [List.eraseIdx]
  have hidx : t.index = 0 := by
    rw [ht]
    show s'.index = 0
    rw [hfields.2.2.1, hi0]
  refine ⟨?_, by rw [ht], by rw [ht], by rw [ht], hi0, hidx, by rw [hdeckx]; rfl⟩
  apply currentC_eq_of_getElem
  rw [hdeckx, hidx]
  rfl

/-- C2, witness: a concrete one-item session with a wrong pending
input. -/
theorem claim_C2_witness :
    currentC ((nextQuestion 99 "mk" "wk" emptyStore (checkAnswerC oneItemSession)).1)
      = some itemA
    ∧ ((nextQuestion 99 "mk" "wk" emptyStore (checkAnswerC oneItemSession)).1).userInput = ""
    ∧ ((nextQuestion 99 "mk" "wk" emptyStore (checkAnswerC oneItemSession)).1).index = 0
    ∧ (deckC ((nextQuestion 99 "mk" "wk" emptyStore (checkAnswerC oneItemSession)).1)).length
      = 1 := by
  have h := claim_C2_single 99 "mk" "wk" emptyStore oneItemSession itemA
    (by decide) (by decide) (by decide) (by decide) (by decide)
  exact ⟨h.1, h.2.1, h.2.2.2.2.2.1, h.2.2.2.2.2.2⟩

/-! ## Claim C1 -/

/-- C1, counterexample.  On a 2-item filtered deck with the cursor at
position 0 (= N-2), an incorrect answer followed by `nextQuestion`
requeues the answered item to the end and advances the cursor to
position 1 — which is exactly where the requeued item now sits, so the
answered item **is** at the current cursor position, contradicting the
claim. -/
theorem claim_C1_cex :
    let t := (nextQuestion 99 "mk" "wk" emptyStore (checkAnswerC twoItemSession)).1
    (deckC twoItemSession).length = 2
    ∧ currentC twoItemSession = some itemA
    ∧ (checkAnswerC twoItemSession).isCorrect = false
    ∧ currentC t = some itemA := by
  decide

/-- C1, amended.  After an incorrect answer on an N-item filtered deck
(N > 1) and an advance, the answered item is moved to the end of the
underlying shuffled deck, the filtered deck becomes the old deck with
the item moved from the cursor position to the end, and the cursor
advances to `(i+1) mod N`.  The answered item is no longer at the cursor
**iff** the cursor was not at position N-2: from position N-2 the
advance lands exactly on the requeued item.  In all cases the item
reappears at the cursor after at most N-1 subsequent `goNext`
advances. -/
theorem claim_C1_amended (now : Int) (mk wk : String) (st : Store)
    (s : CheckSession) (x : StudyItem)
    (hnd : (s.shuffledDeck.map (fun y => y.id)).Nodup)
    (hN : 2 ≤ (deckC s).length)
    (hget : (deckC s)[s.index]? = some x)
    (hxid : x.id ≠ "")
    (hwrong : vocabCorrect s.userInput x.korean = false) :
    let t := (nextQuestion now mk wk st (checkAnswerC s)).1
    t.shuffledDeck = requeue s.shuffledDeck x.id
    ∧ t.shuffledDeck.getLast? = some x
    ∧ deckC t = (deckC s).eraseIdx s.index ++ [x]
    ∧ t.index = (s.index + 1) % (deckC s).length
    ∧ (s.index ≠ (deckC s).length - 2 → currentC t ≠ some x)
    ∧ (s.index = (deckC s).length - 2 → currentC t = some x)
    ∧ ∃ k, k ≤ (deckC s).length - 1 ∧ currentC (goNextC^[k] t) = some x := by
  intro t
  have hi : s.index < (deckC s).length := (List.getElem?_eq_some.mp hget).1
  have hcur : currentC s = some x := currentC_eq_of_getElem s x hget
  have hs' := checkAnswerC_of_current s x hcur
  set s' := checkAnswerC s with hdefs'
  have hsd : s'.shuffledDeck = s.shuffledDeck := by rw [hs']
  have hli : s'.learnedIds = s.learnedIds := by rw [hs']
  have hix : s'.index = s.index := by rw [hs']
  have hic : s'.isCorrect = false := by rw [hs']; exact hwrong
  have hdeck' : deckC s' = deckC s := by unfold deckC; rw [hsd, hli]
  have hcur' : currentC s' = some x := by
    apply currentC_eq_of_getElem
    rw [hdeck', hix]
    exact hget
  have hlen1 : (deckC s').length ≠ 1 := by rw [hdeck']; omega
  have ht : t = { s' with shuffledDeck := requeue s'.shuffledDeck x.id, index := (s'.index + 1) % (deckC s').length } :=
    nextQuestion_wrong_multi_state now mk wk st s' x hic hcur' hxid hlen1
  have hxmem : x ∈ s.shuffledDeck := (List.mem_filter.mp (List.getElem?_mem hget)).1
  have hinj : ∀ y ∈ s.shuffledDeck, y.id = x.id → y = x :=
    fun y hy he => List.inj_on_of_nodup_map hnd hy hxmem he
  have hsdt : t.shuffledDeck = requeue s.shuffledDeck x.id := by
    rw [ht]
    show requeue s'.shuffledDeck x.id = _
    rw [hsd]
  have hlast : t.shuffledDeck.getLast? = some x := by
    rw [hsdt, requeue_eq_eraseP s.shuffledDeck x hinj hxmem]
    exact List.getLast?_concat _
  have hdeckt : deckC t = (deckC s).eraseIdx s.index ++ [x] := by
    rw [ht]
    show (requeue s'.shuffledDeck x.id).filter (fun j => !s'.learnedIds.contains j.id) = _
    rw [hsd, hli]
    exact deckC_requeue s.shuffledDeck s.learnedIds x s.index hnd hget
  have hidx : t.index = (s.index + 1) % (deckC s).length := by
    rw [ht]
    show (s'.index + 1) % (deckC s').length = _
    rw [hix, hdeck']
  have hNpos : 0 < (deckC s).length := by omega
  have hlen_er : ((deckC s).eraseIdx s.index).length = (deckC s).length - 1 :=
    List.length_eraseIdx_of_lt hi
  have hNt : (deckC t).length = (deckC s).length := by
    rw [hdeckt, List.length_append, hlen_er, List.length_singleton]
    omega
  have hjlt : t.index < (deckC s).length := by
    rw [hidx]
    exact Nat.mod_lt _ hNpos
  have hlastpos : (deckC t)[(deckC s).length - 1]? = some x := by
    rw [hdeckt, List.getElem?_append_right (by rw [hlen_er])]
    rw [hlen_er]
    simp
  have hndfil : ((deckC s).map (fun y => y.id)).Nodup :=
    ((List.filter_sublist s.shuffledDeck).map (fun y => y.id)).nodup hnd
  have hndd : (deckC s).Nodup := List.Nodup.of_map _ hndfil
  have hget2 := hget
  rw [List.getElem?_eq_getElem hi] at hget2
  have hxval : (deckC s)[s.index] = x := Option.some.inj hget2
  refine ⟨hsdt, hlast, hdeckt, hidx, ?_, ?_, ?_⟩
  · intro hne hcontra
    have hjt : t.index < (deckC t).length := by rw [hNt]; exact hjlt
    have hcc : currentC t = some ((deckC t)[t.index]) :=
      currentC_eq_of_getElem t _ (List.getElem?_eq_getElem hjt)
    rw [hcc] at hcontra
    have hval : (deckC t)[t.index] = x := Option.some.inj hcontra
    have h4 : (deckC t)[t.index]? = some x := by
      rw [List.getElem?_eq_getElem hjt, hval]
    rcases Nat.lt_or_ge (s.index + 1) (deckC s).length with hlt | hge
    · have hje : t.index = s.index + 1 := by rw [hidx, Nat.mod_eq_of_lt hlt]
      rcases Nat.lt_or_ge (s.index + 1) ((deckC s).length - 1) with hlt2 | hge2
      · have h1 : (deckC t)[t.index]? = ((deckC s).eraseIdx s.index)[s.index + 1]? := by
          rw [hdeckt, hje]
          exact List.getElem?_append_left (by rw [hlen_er]; omega)
        have hb2 : s.index + 2 < (deckC s).length := by omega
        have h2 : ((deckC s).eraseIdx s.index)[s.index + 1]? = (deckC s)[s.index + 2]? :=
          List.getElem?_eraseIdx_of_ge _ _ _ (by omega)
        have h3 : (deckC s)[s.index + 2]? = some ((deckC s)[s.index + 2]) :=
          List.getElem?_eq_getElem hb2
        have h5 : (deckC s)[s.index + 2] = x := by
          have hc := h4.symm.trans (h1.trans (h2.trans h3))
          exact (Option.some.inj hc).symm
        rw [← hxval] at h5
        have := (hndd.getElem_inj_iff).mp h5
        omega
      · exact hne (by omega)
    · have hje : t.index = 0 := by
        rw [hidx]
        have he : s.index + 1 = (deckC s).length := by omega
        rw [he, Nat.mod_self]
      have h1 : (deckC t)[t.index]? = ((deckC s).eraseIdx s.index)[0]? := by
        rw [hdeckt, hje]
        exact List.getElem?_append_left (by rw [hlen_er]; omega)
      have h2 : ((deckC s).eraseIdx s.index)[0]? = (deckC s)[0]? :=
        List.getElem?_eraseIdx_of_lt _ _ _ (by omega)
      have h3 : (deckC s)[0]? = some ((deckC s)[0]) :=
        List.getElem?_eq_getElem hNpos
      have h5 : (deckC s)[0] = x := by
        have hc := h4.symm.trans (h1.trans (h2.trans h3))
        exact (Option.some.inj hc).symm
      rw [← hxval] at h5
      have := (hndd.getElem_inj_iff).mp h5
      omega
  · intro heq
    have hje : t.index = (deckC s).length - 1 := by
      rw [hidx]
      have he : s.index + 1 = (deckC s).length - 1 := by omega
      rw [he, Nat.mod_eq_of_lt (by omega)]
    apply currentC_eq_of_getElem
    rw [hje]
    exact hlastpos
  · have h0t : (deckC t).length ≠ 0 := by rw [hNt]; omega
    have hut : t.index < (deckC t).length := by rw [hNt]; exact hjlt
    refine ⟨(deckC s).length - 1 - t.index, by omega, ?_⟩
    obtain ⟨hd, hidxk⟩ :=
      goNextC_iterate ((deckC s).length - 1 - t.index) t h0t hut
    apply currentC_eq_of_getElem
    rw [hd, hidxk, hNt]
    have he : t.index + ((deckC s).length - 1 - t.index) = (deckC s).length - 1 := by
      omega
    rw [he, Nat.mod_eq_of_lt (by omega)]
    exact hlastpos

/-- C1, witness: a two-item session answering the last item wrongly; the
item moves to the end of the shuffled deck and the cursor wraps to 0. -/
theorem claim_C1_witness :
    ((nextQuestion 7 "mk" "wk" emptyStore (checkAnswerC twoItemSessionAt1)).1).shuffledDeck.getLast?
      = some itemB
    ∧ ((nextQuestion 7 "mk" "wk" emptyStore (checkAnswerC twoItemSessionAt1)).1).index = 0 := by
  have h := claim_C1_amended 7 "mk" "wk" emptyStore twoItemSessionAt1 itemB
    (by decide) (by decide) (by decide) (by decide) (by decide)
  refine ⟨h.2.1, ?_⟩
  rw [h.2.2.2.1]
  decide

end KoreanStudy
